import Mathlib

/-!
Shallow embedding of the upload-ingestion pipeline of the `yoinkx` server
(`src/webserver/checked_file_stream.rs`, `src/webserver/image_upload.rs`,
`src/webserver/handler_err.rs`, `src/conf.rs`), together with theorems
settling the specification claims about it.

Modelling conventions:
* bytes are `Nat`; a stream chunk (`bytes::Bytes`) is a `List Nat`;
* a multipart field body is the finite list of chunks that `field.try_next`
  would yield until `None`; I/O errors and `Poll::Pending` are not modelled
  (every claim here is about the value-level behaviour of a completed read);
* external crates (`infer`, `mime`, `regex`, the filesystem and the
  actix-multipart `Limits`) enter as explicit oracle parameters or as small
  definitions reproducing their documented contract; everything else is a
  direct translation of the repository's Rust.
-/

namespace Yoinkx

/-- A chunk of bytes as yielded by the multipart field stream. -/
abbrev Chunk := List Nat

/-- Total byte count of a list of chunks (the running count
`write_to_file` accumulates). -/
def chunksLen (cs : List Chunk) : Nat :=
  (cs.map List.length).sum

/-- Embeds `FileCategory` from `checked_file_stream.rs`. -/
inductive FileCategory
  | Image
  | Video
  | Text
  | Other
  | Unknown
deriving DecidableEq

/-- Embeds `FileType` from `checked_file_stream.rs`. -/
structure FileType where
  category : FileCategory
  mime_type : String
  file_extension : String
deriving DecidableEq

/-- Matcher kinds of the external `infer` crate (only the constructors the
source matches on are distinguished; everything else falls into `other`). -/
inductive MatcherType
  | Image
  | Text
  | Video
  | other
deriving DecidableEq

/-- The data of an `infer::Type` value (external crate): its matcher type,
MIME string and extension. -/
structure InferType where
  matcherType : MatcherType
  mimeType : String
  extension : String
deriving DecidableEq

/-- The data of a `mime::Mime` value (external crate): its top-level type,
essence string and subtype. -/
structure Mime where
  ty : String
  essence : String
  subtype : String
deriving DecidableEq

/-- Embeds `impl From<Option<infer::Type>> for FileType` (checked_file_stream.rs:121-146). -/
def fileTypeOfInfer (value : Option InferType) : FileType :=
  match value with
  | some t =>
    let category :=
      match t.matcherType with
      | .Image => FileCategory.Image
      | .Text => FileCategory.Text
      | .Video => FileCategory.Video
      | .other => FileCategory.Other
    { category := category, mime_type := t.mimeType, file_extension := t.extension }
  | none =>
    { category := FileCategory.Unknown
      mime_type := "application/octet-stream"
      file_extension := "" }

/-- Embeds `impl From<Option<&mime::Mime>> for FileType` (checked_file_stream.rs:148-173);
`mime::IMAGE`, `mime::VIDEO`, `mime::TEXT` are the strings "image", "video", "text". -/
def fileTypeOfMime (value : Option Mime) : FileType :=
  match value with
  | some t =>
    let category :=
      if t.ty = "image" then FileCategory.Image
      else if t.ty = "video" then FileCategory.Video
      else if t.ty = "text" then FileCategory.Text
      else FileCategory.Other
    { category := category, mime_type := t.essence, file_extension := t.subtype }
  | none =>
    { category := FileCategory.Unknown
      mime_type := "application/octet-stream"
      file_extension := "" }

/-- The declared-vs-inferred reconciliation block of
`CheckedFileStream::from_field` (checked_file_stream.rs:56-74). -/
def reconcileFileType (mimed magic : FileType) : FileType :=
  if mimed ≠ magic then
    if magic.category = FileCategory.Unknown ∧ mimed.category ≠ FileCategory.Unknown then
      mimed
    else
      magic
  else
    mimed

/-- Embeds `INFERENCE_BUF_LEN` (checked_file_stream.rs:23). -/
def INFERENCE_BUF_LEN : Nat := 8192

/-- The buffer-filling loop of `from_field` (checked_file_stream.rs:39-54):
while fewer than `INFERENCE_BUF_LEN` bytes have been copied, pull the next
chunk (whole) into the buffer; stop at end of stream.  Returns the filled
buffer and the unconsumed remainder of the field. -/
def fillInferenceBuf (buf : List Nat) : List Chunk → List Nat × List Chunk
  | [] => (buf, [])
  | c :: rest =>
    if buf.length < INFERENCE_BUF_LEN then
      fillInferenceBuf (buf ++ c) rest
    else
      (buf, c :: rest)

/-- Embeds `CheckedFileStream` (checked_file_stream.rs:15-21); `field` is the
remainder of the multipart field stream. -/
structure CheckedFileStream where
  inference_buf : List Nat
  buf_has_been_consumed : Bool
  file_type : FileType
  base_file_name : String
  field : List Chunk
deriving DecidableEq

/-- Embeds `CheckedFileStream::from_field` (checked_file_stream.rs:27-84).
`inferGet` is the external `infer::get` oracle; `filename` is
`content_disposition().get_filename()`; `contentType` is `content_type()`;
`chunks` is the field body.  (The only Rust failure path is a stream-read
error, which the pure chunk-list model does not produce.) -/
def fromField (inferGet : List Nat → Option InferType) (filename : Option String)
    (contentType : Option Mime) (chunks : List Chunk) : CheckedFileStream :=
  let base_file_name := filename.getD "unnamed screenshot"
  let r := fillInferenceBuf [] chunks
  let mimed := fileTypeOfMime contentType
  let magic := fileTypeOfInfer (inferGet r.1)
  { inference_buf := r.1
    buf_has_been_consumed := false
    file_type := reconcileFileType mimed magic
    base_file_name := base_file_name
    field := r.2 }

/-- Embeds `Stream::poll_next` for `CheckedFileStream` (checked_file_stream.rs:90-111),
as a deterministic step: the yielded item (`none` = stream end) and the
successor state.  Note the source never mutates `buf_has_been_consumed`, so
the first branch returns the state unchanged. -/
def pollNext (s : CheckedFileStream) : Option Chunk × CheckedFileStream :=
  if ¬ s.buf_has_been_consumed ∧ s.inference_buf ≠ [] then
    (some s.inference_buf, s)
  else
    match s.field with
    | c :: rest => (some c, { s with field := rest })
    | [] => (none, s)

/-- Drain a `CheckedFileStream` by iterating `pollNext`, with fuel: `some cs`
if the stream ends within `fuel` polls yielding `cs`, `none` otherwise. -/
def pollDrain : Nat → CheckedFileStream → Option (List Chunk)
  | 0, _ => none
  | fuel + 1, s =>
    match pollNext s with
    | (none, _) => some []
    | (some c, s') => (pollDrain fuel s').map (c :: ·)

/-- Embeds `HandlerError` (handler_err.rs:7-34).  Payloads irrelevant to the claims
(wrapped `anyhow`/`io` errors) are dropped.  `fileWasNotAnImage` carries the
`FileType` its call site (image_upload.rs:70) passes, though handler_err.rs
declares `Option<infer::Type>` — the two files in the snapshot disagree.
`failedToWriteImage` is modelled from the spec: it is constructed in
image_upload.rs but not declared in handler_err.rs; the spec's `WriteFailed`
("I/O error during write"). -/
inductive HandlerErr
  | internalError
  | tokioRuntimeError
  | couldntOpenImageFile
  | failedToLoadImage
  | imageHostingDisabled
  | filePathNotAllowed (path : String)
  | invalidPath
  | imageDoesNotExist (path : String)
  | errorHandlerFailed
  | fileTooLarge (actual limit : Nat)
  | fileWasNotAnImage (ft : FileType)
  | fieldReadError (field_name : String) (cause : HandlerErr)
  | failedToWriteImage
deriving DecidableEq

/-- Embeds `actix_multipart::MultipartError` (external crate), restricted to the
shapes this code produces: `Field { field_name, source }`, the payload
overflow produced by `Limits::try_consume_limits`, and anything else. -/
inductive MultipartErr
  | field (field_name : String) (source : HandlerErr)
  | payloadOverflow
  | other
deriving DecidableEq

/-- Embeds `impl From<actix_multipart::MultipartError> for HandlerError`
(handler_err.rs:58-68): a `Field` error becomes `FieldReadError` (the Rust
renders the source to a string; the model keeps the source itself), anything
else — including the overflow from the multipart limits — falls to
`InternalError`. -/
def handlerErrOfMultipart (e : MultipartErr) : HandlerErr :=
  match e with
  | .field field_name source => .fieldReadError field_name source
  | .payloadOverflow => .internalError
  | .other => .internalError

/-- Embeds `HandlerError::status_code` (handler_err.rs:36-56), as the numeric HTTP
status.  `failedToWriteImage` has no arm in the source (the variant is not
declared there); modelled from the spec's "infrastructure failure → 500". -/
def HandlerErr.statusCode : HandlerErr → Nat
  | .internalError => 500
  | .couldntOpenImageFile => 404
  | .imageHostingDisabled => 403
  | .filePathNotAllowed _ => 403
  | .invalidPath => 500
  | .errorHandlerFailed => 418
  | .imageDoesNotExist _ => 404
  | .failedToLoadImage => 500
  | .tokioRuntimeError => 500
  | .fileTooLarge _ _ => 413
  | .fileWasNotAnImage _ => 400
  | .fieldReadError _ _ => 500
  | .failedToWriteImage => 500

/-- Modelled from the spec: `HandlerError::to_multipart_err` is called
throughout `read_field` but not defined in the sources; per its call sites
it wraps a `HandlerError` into `MultipartError::Field` with the given field
name. -/
def toMultipartErr (field_name : String) (e : HandlerErr) : MultipartErr :=
  .field field_name e

/-- Embeds `Config` (conf.rs:13-27). -/
structure Config where
  target_dir : Option String
  enable_imagehost : Bool
  enable_subdirectories : Bool
  subdirectory_regex : String
  bind : List String
  max_image_size : Nat
deriving DecidableEq

/-- A seekable file: its byte contents and the current cursor position. -/
structure FileState where
  contents : List Nat
  pos : Nat
deriving DecidableEq

/-- Embeds `tokio::fs::File::write_all`: overwrite at the cursor, advance it. -/
def writeAll (c : Chunk) (f : FileState) : FileState :=
  { contents := f.contents.take f.pos ++ c ++ f.contents.drop (f.pos + c.length)
    pos := f.pos + c.length }

/-- Embeds `debug_file_handle` (image_upload.rs:285-294): seek to start, read at
most the probe buffer's spare capacity (zero — `vec![0; 64]` is full, so
`read_buf` appends nothing), seek to start again.  Net effect: cursor to 0. -/
def debugFileHandle (f : FileState) : FileState :=
  { f with pos := 0 }

/-- Embeds `actix_multipart::form::Limits::try_consume_limits(len, false)` (external
crate contract): subtract the chunk length from the remaining total budget,
erroring with a payload overflow when it does not fit; `none` = no limit. -/
def tryConsumeLimits (chunkLen : Nat) (lim : Option Nat) : Except MultipartErr (Option Nat) :=
  match lim with
  | none => .ok none
  | some r => if chunkLen ≤ r then .ok (some (r - chunkLen)) else .error .payloadOverflow

/-- Embeds `write_to_file` (image_upload.rs:149-167): loop `field.try_next()`;
for each chunk first consume the multipart limits, then `write_all` it; at
stream end run `debug_file_handle` (whose result the source ignores) and
return `Ok`.  `fuel` bounds the number of polls: fuel exhaustion (the
`.error .internalError` in the base case) stands for a stream that never
ends, which the Rust loop would consume forever. -/
def writeToFileS : Nat → Option Nat → CheckedFileStream → FileState →
    Except HandlerErr Unit × FileState
  | 0, _, _, f => (.error .internalError, f)
  | fuel + 1, lim, s, f =>
    match pollNext s with
    | (none, _) => (.ok (), debugFileHandle f)
    | (some c, s') =>
      match tryConsumeLimits c.length lim with
      | .error e => (.error (handlerErrOfMultipart e), f)
      | .ok lim' => writeToFileS fuel lim' s' (writeAll c f)

/-- Embeds `write_to_path` (image_upload.rs:125-147): open with
create+truncate+read+write (an empty file, cursor 0), `write_to_file`, then
seek to the start and `debug_file_handle`. -/
def writeToPath (fuel : Nat) (lim : Option Nat) (s : CheckedFileStream) :
    Except HandlerErr Unit × FileState :=
  match writeToFileS fuel lim s ⟨[], 0⟩ with
  | (.error e, f') => (.error e, f')
  | (.ok (), f') => (.ok (), debugFileHandle { f' with pos := 0 })

/-- Embeds `write_to_new_tempfile` (image_upload.rs:105-123): `tempfile::tempfile()`
(an empty file, cursor 0) then `write_to_file`; the handle is returned as
`write_to_file` left it (no explicit seek on this path). -/
def writeToNewTempfile (fuel : Nat) (lim : Option Nat) (s : CheckedFileStream) :
    Except HandlerErr Unit × FileState :=
  writeToFileS fuel lim s ⟨[], 0⟩

/-- A base filename as `choose_filename` manipulates it through
`Path::file_stem` / `Path::extension` / `Path::set_extension`: its stem and
its extension (std `Path` decomposition, external to the repository). -/
structure FileName where
  stem : String
  ext : String
deriving DecidableEq

/-- Render a `FileName` back to the `stem.ext` string `Path` would show. -/
def renderFileName (f : FileName) : String :=
  f.stem ++ "." ++ f.ext

/-- Embeds `PathBuf::join` / `push`. -/
def pathJoin (d s : String) : String :=
  d ++ "/" ++ s

/-- Embeds `choose_subdirectory` (image_upload.rs:217-230).  The external `regex`
crate (compiled once through the `OnceCell`, then `captures` and
`.name("subdir")`) is the oracle `cap`: given the configured regex source
and the filename it returns the text of the `subdir` capture, or `none` on
compile failure, no match, or an unmatched group. -/
def chooseSubdirectory (cap : String → String → Option String) (config : Config)
    (filename : String) : Option String :=
  cap config.subdirectory_regex filename

/-- The candidate paths of the collision loop in `choose_filename`
(image_upload.rs:191-203): candidate 0 is the literal base filename under
the target directory; candidate `n+1` appends `_<n>` to the stem, keeping
the extension. -/
def candidatePath (tgtDir : String) (base : FileName) : Nat → String
  | 0 => pathJoin tgtDir (renderFileName base)
  | n + 1 => pathJoin tgtDir (renderFileName ⟨base.stem ++ "_" ++ toString n, base.ext⟩)

/-- The `while tgt_file.exists()` loop of `choose_filename`
(image_upload.rs:192-202), over the filesystem-existence oracle `existsF`;
`n` is the next suffix to try, `fuel` bounds the iterations (the Rust loop
runs unboundedly; on a finite filesystem `existsF` rejects some candidate
and the fuel is immaterial). -/
def collisionLoop (existsF : String → Bool) (tgtDir : String) (base : FileName) :
    Nat → Nat → String
  | 0, n => candidatePath tgtDir base n
  | fuel + 1, n =>
    if existsF (candidatePath tgtDir base n) then
      collisionLoop existsF tgtDir base fuel (n + 1)
    else
      candidatePath tgtDir base n

/-- Embeds `choose_filename` (image_upload.rs:178-207): no target dir ⇒ `none`;
otherwise push the subdirectory the regex oracle yields (if any), require
`create_dir_all` to succeed (`createDirOk` oracle; failure ⇒ `none`), then
run the collision loop from the literal base filename. -/
def chooseFilename (existsF createDirOk : String → Bool)
    (cap : String → String → Option String) (fuel : Nat) (config : Config)
    (base : FileName) : Option String :=
  match config.target_dir with
  | none => none
  | some tgt =>
    let filename := renderFileName base
    let tgtDir :=
      match chooseSubdirectory cap config filename with
      | some sub => pathJoin tgt sub
      | none => tgt
    if createDirOk tgtDir then
      some (collisionLoop existsF tgtDir base fuel 0)
    else
      none

/-- Embeds `check_is_allowed_type` (image_upload.rs:169-172). -/
def checkIsAllowedType (file : CheckedFileStream) (_conf : Config) : Bool :=
  file.file_type.category = FileCategory.Image

/-- Modelled from the spec: `CheckedFileStream::get_filename_with_extension`
is called in `read_field` (image_upload.rs:75) but not defined in the
sources; per the spec ("run Target Path Resolver with the (possibly
extension-corrected) filename") it pairs the base filename with the
reconciled type's extension. -/
def getFilenameWithExtension (s : CheckedFileStream) : FileName :=
  ⟨s.base_file_name, s.file_type.file_extension⟩

/-- Embeds `MaybeTempImageFile` (image_upload.rs:44-47). -/
structure MaybeTempImageFileM where
  f : FileState
  path : Option String
deriving DecidableEq

/-- Filesystem side effects of `read_field` that create a destination:
opening the resolved target path (create+truncate) or creating an ephemeral
temporary file. -/
inductive FsEvent
  | createTargetFile (path : String)
  | createTempFile
deriving DecidableEq

/-- Embeds `MaybeTempImageFile::read_field` (image_upload.rs:52-102), in execution
order: build the `CheckedFileStream` (`from_field`); fail with an internal
error when no config is attached; reject non-image types; resolve a target
path and write there, or else write to a fresh tempfile.  Besides the
result, returns the list of destination-creating filesystem events, in
order. -/
def readField (wfuel cfuel : Nat) (inferGet : List Nat → Option InferType)
    (cap : String → String → Option String) (existsF createDirOk : String → Bool)
    (configData : Option Config) (lim : Option Nat) (filename : Option String)
    (contentType : Option Mime) (chunks : List Chunk) :
    Except MultipartErr MaybeTempImageFileM × List FsEvent :=
  let field_name := "img"
  let file_stream := fromField inferGet filename contentType chunks
  match configData with
  | some config =>
    if ¬ checkIsAllowedType file_stream config then
      (.error (toMultipartErr field_name (.fileWasNotAnImage file_stream.file_type)), [])
    else
      let file_name := getFilenameWithExtension file_stream
      match chooseFilename existsF createDirOk cap cfuel config file_name with
      | some tgt_file =>
        match writeToPath wfuel lim file_stream with
        | (.error e, _) => (.error (toMultipartErr field_name e), [.createTargetFile tgt_file])
        | (.ok (), f) => (.ok ⟨f, some tgt_file⟩, [.createTargetFile tgt_file])
      | none =>
        match writeToNewTempfile wfuel lim file_stream with
        | (.error e, _) => (.error (toMultipartErr field_name e), [.createTempFile])
        | (.ok (), f) => (.ok ⟨f, none⟩, [.createTempFile])
  | none => (.error (.field field_name .internalError), [])

/-- Embeds `upload` (image_upload.rs:240-256): propagate the clipboard step's
result (`insert_file_to_clipboard`, whose decode/clipboard collaborators are
summarized by `clipResult`); on success answer with the stored path's string
form, or the literal `"clipboard only"` when nothing was persisted. -/
def upload (clipResult : Except HandlerErr Unit) (f : MaybeTempImageFileM) :
    Except HandlerErr String :=
  match clipResult with
  | .error e => .error e
  | .ok () =>
    match f.path with
    | some loc => .ok loc
    | none => .ok "clipboard only"

/-! ### Helper lemmas -/

/-- Writing a chunk on a file whose cursor sits at the end appends the chunk
and leaves the cursor at the new end. -/
theorem writeAll_append (c : Chunk) (f : FileState) (h : f.pos = f.contents.length) :
    writeAll c f = ⟨f.contents ++ c, f.pos + c.length⟩ := by
  have hd : f.contents.drop (f.pos + c.length) = [] :=
    List.drop_eq_nil_of_le (by omega)
  simp [writeAll, h, hd]

/-- Unfolded characterisation of the probe-buffer fill loop: it consumes a
whole-chunk prefix of the stream, stopping as soon as the accumulated buffer
reaches `INFERENCE_BUF_LEN` (so only the last consumed chunk may push it
past that bound). -/
theorem fillInferenceBuf_spec (chunks : List Chunk) :
    ∀ buf : List Nat, ∃ k,
      fillInferenceBuf buf chunks = (buf ++ (chunks.take k).flatten, chunks.drop k) ∧
      (∀ j, j < k → (buf ++ (chunks.take j).flatten).length < INFERENCE_BUF_LEN) ∧
      (k < chunks.length → INFERENCE_BUF_LEN ≤ (buf ++ (chunks.take k).flatten).length) := by
  induction chunks with
  | nil =>
    intro buf
    exact ⟨0, by simp [fillInferenceBuf], by omega, by simp⟩
  | cons c rest ih =>
    intro buf
    by_cases h : buf.length < INFERENCE_BUF_LEN
    · obtain ⟨k', h1, h2, h3⟩ := ih (buf ++ c)
      refine ⟨k' + 1, ?_, ?_, ?_⟩
      · rw [fillInferenceBuf, if_pos h, h1]
        simp [List.take_succ_cons, List.append_assoc]
      · intro j hj
        match j with
        | 0 => simpa using h
        | j' + 1 =>
          have := h2 j' (by omega)
          simpa [List.take_succ_cons, List.append_assoc] using this
      · intro hk
        have := h3 (by simpa using hk)
        simpa [List.take_succ_cons, List.append_assoc] using this
    · refine ⟨0, ?_, ?_, ?_⟩
      · rw [fillInferenceBuf, if_neg h]
        simp
      · intro j hj
        omega
      · intro _
        simpa using Nat.le_of_not_lt h

/-- If the stream ends within `fuel` polls yielding `cs`, the write loop
succeeds whenever the total byte count fits the remaining limit, appending
every yielded chunk and leaving the cursor at the start (via
`debug_file_handle`). -/
theorem writeToFileS_ok (fuel : Nat) :
    ∀ (s : CheckedFileStream) (cs : List Chunk) (lim : Option Nat) (f : FileState),
    pollDrain fuel s = some cs →
    (∀ L, lim = some L → chunksLen cs ≤ L) →
    f.pos = f.contents.length →
    writeToFileS fuel lim s f = (.ok (), ⟨f.contents ++ cs.flatten, 0⟩) := by
  induction fuel with
  | zero =>
    intro s cs lim f h1 _ _
    simp [pollDrain] at h1
  | succ fuel ih =>
    intro s cs lim f h1 h2 h3
    obtain ⟨fc, fp⟩ := f
    replace h3 : fp = fc.length := h3
    subst h3
    cases hp : pollNext s with
    | mk oc s' =>
      rw [pollDrain, hp] at h1
      rw [writeToFileS, hp]
      cases oc with
      | none =>
        dsimp only at h1 ⊢
        obtain rfl : cs = [] := by simpa using h1.symm
        simp [debugFileHandle]
      | some c =>
        dsimp only at h1 ⊢
        obtain ⟨cs', hd, rfl⟩ := Option.map_eq_some'.mp h1
        have hw := writeAll_append c ⟨fc, fc.length⟩ rfl
        cases lim with
        | none =>
          rw [show tryConsumeLimits c.length none = .ok none from rfl]
          dsimp only
          rw [hw, ih s' cs' none ⟨fc ++ c, fc.length + c.length⟩ hd
            (fun L hL => by cases hL) (by simp)]
          simp
        | some L =>
          have hc : c.length ≤ L := by
            have := h2 L rfl
            simp [chunksLen] at this
            omega
          rw [show tryConsumeLimits c.length (some L) = .ok (some (L - c.length)) from by
            simp [tryConsumeLimits, hc]]
          dsimp only
          rw [hw, ih s' cs' (some (L - c.length)) ⟨fc ++ c, fc.length + c.length⟩ hd
            (by
              intro L' hL'
              obtain rfl : L - c.length = L' := by simpa using hL'
              have := h2 L rfl
              simp [chunksLen] at this ⊢
              omega)
            (by simp)]
          simp

/-- If the stream ends within `fuel` polls yielding `cs`, and the cumulative
byte count first exceeds the remaining limit `L` at (0-based) chunk index
`k`, the write loop stops exactly there: chunks `0..k-1` are on the file,
chunk `k` is not, and the error surfaced is `InternalError` (the
`From<MultipartError>` image of the limits overflow) — not `FileTooLarge`. -/
theorem writeToFileS_abort (fuel : Nat) :
    ∀ (s : CheckedFileStream) (cs : List Chunk) (L k : Nat) (f : FileState),
    pollDrain fuel s = some cs →
    chunksLen (cs.take k) ≤ L →
    L < chunksLen (cs.take (k + 1)) →
    f.pos = f.contents.length →
    writeToFileS fuel (some L) s f =
      (.error .internalError,
        ⟨f.contents ++ (cs.take k).flatten, (f.contents ++ (cs.take k).flatten).length⟩) := by
  induction fuel with
  | zero =>
    intro s cs L k f h1 _ _ _
    simp [pollDrain] at h1
  | succ fuel ih =>
    intro s cs L k f h1 h2 h3 h4
    obtain ⟨fc, fp⟩ := f
    replace h4 : fp = fc.length := h4
    subst h4
    cases hp : pollNext s with
    | mk oc s' =>
      rw [pollDrain, hp] at h1
      rw [writeToFileS, hp]
      cases oc with
      | none =>
        dsimp only at h1
        obtain rfl : cs = [] := by simpa using h1.symm
        simp [chunksLen] at h3
      | some c =>
        dsimp only at h1 ⊢
        obtain ⟨cs', hd, rfl⟩ := Option.map_eq_some'.mp h1
        cases k with
        | zero =>
          have hc : ¬ c.length ≤ L := by
            simp [chunksLen] at h3
            omega
          rw [show tryConsumeLimits c.length (some L) = .error .payloadOverflow from by
            simp [tryConsumeLimits, hc]]
          dsimp only
          simp [handlerErrOfMultipart]
        | succ k' =>
          have hck : chunksLen ((c :: cs').take (k' + 1)) =
              c.length + chunksLen (cs'.take k') := by
            simp [chunksLen]
          have hck' : chunksLen ((c :: cs').take (k' + 1 + 1)) =
              c.length + chunksLen (cs'.take (k' + 1)) := by
            simp [chunksLen]
          have hc : c.length ≤ L := by omega
          rw [show tryConsumeLimits c.length (some L) = .ok (some (L - c.length)) from by
            simp [tryConsumeLimits, hc]]
          dsimp only
          rw [writeAll_append c ⟨fc, fc.length⟩ rfl,
            ih s' cs' (L - c.length) k' ⟨fc ++ c, fc.length + c.length⟩ hd
              (by omega) (by omega) (by simp)]
          simp

/-- Offset form of the collision-loop characterisation: starting at suffix
index `n`, if the first free candidate is `k` steps away and the fuel covers
those steps, the loop returns exactly that candidate. -/
theorem collisionLoop_from (existsF : String → Bool) (d : String) (b : FileName) :
    ∀ (k fuel n : Nat),
    (∀ j, j < k → existsF (candidatePath d b (n + j)) = true) →
    existsF (candidatePath d b (n + k)) = false →
    k < fuel →
    collisionLoop existsF d b fuel n = candidatePath d b (n + k) := by
  intro k
  induction k with
  | zero =>
    intro fuel n _ hfree hfuel
    match fuel, hfuel with
    | fuel + 1, _ =>
      rw [collisionLoop]
      rw [if_neg (by simpa using hfree)]
      rfl
  | succ k ih =>
    intro fuel n hbusy hfree hfuel
    match fuel, hfuel with
    | fuel + 1, hfuel =>
      rw [collisionLoop]
      rw [if_pos (by simpa using hbusy 0 (by omega))]
      have harg : ∀ j : Nat, n + (j + 1) = (n + 1) + j := by omega
      have := ih fuel (n + 1)
        (fun j hj => by rw [← harg j]; exact hbusy (j + 1) (by omega))
        (by rw [← harg k]; exact hfree)
        (by omega)
      rw [this, harg k]

/-! ### Claim theorems -/

/-- Claim C1 (code bug at the cited lines): the claim says the retained
probe buffer is replayed exactly once and then the remainder of the field
follows.  In the source `poll_next` never sets `buf_has_been_consumed`, so
polling a freshly built `CheckedFileStream` yields the probe buffer *and
leaves the state unchanged*: here, for the one-byte upload `[[1]]`, the
poll returns chunk `[1]` together with the very same state, so every
subsequent poll yields `[1]` again — downstream sees the prefix duplicated
without end instead of exactly once. -/
theorem pollNext_replays_probe_buffer :
    pollNext (fromField (fun _ => none) (some "a.png") none [[1]]) =
      (some [1], fromField (fun _ => none) (some "a.png") none [[1]]) := by
  rfl

/-- Claim C2 (code bug): the writer does abort exactly at the first chunk
whose addition crosses the remaining limit, writing chunks `0..k-1` and
nothing of chunk `k` — but the limit is the actix-multipart budget (the
configured `max_image_size` is read nowhere in the upload path), and the
error surfaced is `InternalError` (HTTP 500), not a `FileTooLarge` carrying
the attempted size and the configured limit (HTTP 413): `FileTooLarge` is
declared yet never constructed. -/
theorem writeToFile_oversize_aborts_without_size_error (fuel : Nat)
    (s : CheckedFileStream) (cs : List Chunk) (L k : Nat)
    (h1 : pollDrain fuel s = some cs)
    (h2 : chunksLen (cs.take k) ≤ L)
    (h3 : L < chunksLen (cs.take (k + 1))) :
    writeToFileS fuel (some L) s ⟨[], 0⟩ =
      (.error .internalError,
        ⟨(cs.take k).flatten, ((cs.take k).flatten).length⟩) ∧
    HandlerErr.statusCode .internalError = 500 ∧
    ∀ a l : Nat, HandlerErr.internalError ≠ HandlerErr.fileTooLarge a l := by
  refine ⟨?_, rfl, fun a l h => by cases h⟩
  have h := writeToFileS_abort fuel s cs L k ⟨[], 0⟩ h1 h2 h3 rfl
  simpa using h

/-- Witness for C2: limit 4, chunks `[1,2,3]` then `[4,5]`; the cumulative
count first crosses the limit at chunk index 1, so exactly `[1,2,3]` is on
the file and the error is `InternalError`. -/
theorem writeToFile_oversize_aborts_without_size_error_witness :
    writeToFileS 3 (some 4) ⟨[], true, fileTypeOfMime none, "a", [[1, 2, 3], [4, 5]]⟩
        ⟨[], 0⟩ =
      (.error .internalError, ⟨[1, 2, 3], 3⟩) := by
  have h := writeToFile_oversize_aborts_without_size_error 3
    ⟨[], true, fileTypeOfMime none, "a", [[1, 2, 3], [4, 5]]⟩ [[1, 2, 3], [4, 5]] 4 1
    (by rfl) (by simp [chunksLen]) (by simp [chunksLen])
  simpa using h.1

/-- Claim C3 (code bug): `choose_filename` calls `choose_subdirectory`
unconditionally — `Config.enable_subdirectories` is read nowhere in the
upload path — so with classification *disabled* (`enable_subdirectories =
false`, the shipped default) and a filename the regex captures, the
subdirectory is still appended, contradicting both the claim and the
config field's own documentation. -/
theorem chooseFilename_ignores_enable_subdirectories :
    chooseFilename (fun _ => false) (fun _ => true)
      (fun _ f => if f = "myapp_ab12cd34ef.png" then some "myapp" else none) 1
      { target_dir := some "tgt"
        enable_imagehost := false
        enable_subdirectories := false
        subdirectory_regex := "(?P<subdir>.*)_[\\d\\w]{10}.[\\w]+"
        bind := []
        max_image_size := 100000000 }
      ⟨"myapp_ab12cd34ef", "png"⟩ = some "tgt/myapp/myapp_ab12cd34ef.png" := by
  rfl

/-- Claim C4 (confirmed): for every pair of declared (`mimed`) and
magic-number (`magic`) types, the reconciled type is the magic-number one,
except when the inferred category is `Unknown` and the declared one is not,
in which case the declared type wins.  The single equation covers all four
quadrants (agree-known, agree-unknown, disagree-inferred-unknown,
disagree-both-known). -/
theorem reconcileFileType_favors_inferred (mimed magic : FileType) :
    reconcileFileType mimed magic =
      if magic.category = FileCategory.Unknown ∧ mimed.category ≠ FileCategory.Unknown then
        mimed
      else
        magic := by
  by_cases h : mimed = magic
  · subst h
    simp [reconcileFileType]
  · simp [reconcileFileType, h]

/-- Claim C5 (confirmed): the collision loop of `choose_filename` is
deterministic first-fit over the candidate sequence `base, stem_0.ext,
stem_1.ext, …`: if every candidate below `k` exists and candidate `k` does
not, the loop returns candidate `k` (fuel permitting; the Rust loop is
unbounded). -/
theorem chooseFilename_collision_first_free (existsF : String → Bool) (d : String)
    (b : FileName) (k fuel : Nat)
    (hbusy : ∀ j, j < k → existsF (candidatePath d b j) = true)
    (hfree : existsF (candidatePath d b k) = false)
    (hfuel : k < fuel) :
    collisionLoop existsF d b fuel 0 = candidatePath d b k := by
  have h := collisionLoop_from existsF d b k fuel 0
    (fun j hj => by simpa using hbusy j hj)
    (by simpa using hfree) hfuel
  simpa using h

/-- Witness for C5, the claim's own example: with `d/a.png` and `d/a_0.png`
already present, resolving base name `a.png` under `d` yields `d/a_1.png`. -/
theorem chooseFilename_collision_first_free_witness :
    collisionLoop (fun p => p ∈ ["d/a.png", "d/a_0.png"]) "d" ⟨"a", "png"⟩ 3 0 =
      "d/a_1.png" := by
  have h := chooseFilename_collision_first_free
    (fun p => p ∈ ["d/a.png", "d/a_0.png"]) "d" ⟨"a", "png"⟩ 2 3
    (by decide) (by decide) (by decide)
  simpa using h

/-- Claim C6 (confirmed): when the reconciled category is not `Image`,
`read_field` fails with the `FileWasNotAnImage` error (status 400) and the
event list is empty: no target file is created or written and no temporary
file is created — the type gate runs before either destination exists. -/
theorem readField_rejects_non_image_before_write (wfuel cfuel : Nat)
    (inferGet : List Nat → Option InferType) (cap : String → String → Option String)
    (existsF createDirOk : String → Bool) (config : Config) (lim : Option Nat)
    (filename : Option String) (contentType : Option Mime) (chunks : List Chunk)
    (h : (fromField inferGet filename contentType chunks).file_type.category ≠
      FileCategory.Image) :
    readField wfuel cfuel inferGet cap existsF createDirOk (some config) lim filename
        contentType chunks =
      (.error (.field "img"
        (.fileWasNotAnImage (fromField inferGet filename contentType chunks).file_type)),
        []) ∧
    HandlerErr.statusCode
      (.fileWasNotAnImage (fromField inferGet filename contentType chunks).file_type) =
      400 := by
  refine ⟨?_, rfl⟩
  rw [readField]
  dsimp only
  rw [if_pos (by simpa [checkIsAllowedType] using h)]
  rfl

/-- Witness for C6: a one-byte upload with no declared MIME type resolves to
category `Unknown`, is rejected as not-an-image, and produces no filesystem
event. -/
theorem readField_rejects_non_image_before_write_witness :
    readField 3 1 (fun _ => none) (fun _ _ => none) (fun _ => false) (fun _ => true)
      (some ⟨some "tgt", false, false, "re", [], 100000000⟩) none none none [[1]] =
      (.error (.field "img" (.fileWasNotAnImage (fileTypeOfMime none))), []) := by
  have h := readField_rejects_non_image_before_write 3 1 (fun _ => none) (fun _ _ => none)
    (fun _ => false) (fun _ => true) ⟨some "tgt", false, false, "re", [], 100000000⟩
    none none none [[1]] (by decide)
  exact h.1

/-- Claim C7 (confirmed): whenever `upload` answers successfully, the
response body is the stored path's string form if persistence happened,
and the literal `"clipboard only"` otherwise. -/
theorem upload_success_response (c : Except HandlerErr Unit) (f : MaybeTempImageFileM)
    (s : String) (h : upload c f = .ok s) :
    s = f.path.getD "clipboard only" := by
  cases c with
  | error e => simp [upload] at h
  | ok u =>
    cases u
    cases hpath : f.path with
    | some loc =>
      rw [upload] at h
      rw [hpath] at h
      simp at h
      simp [hpath, h]
    | none =>
      rw [upload] at h
      rw [hpath] at h
      simp at h
      simp [hpath, h]

/-- Witness for C7: a persisted upload answers with the stored path. -/
theorem upload_success_response_witness :
    "tgt/a.png" = (some "tgt/a.png" : Option String).getD "clipboard only" :=
  upload_success_response (.ok ()) ⟨⟨[], 0⟩, some "tgt/a.png"⟩ "tgt/a.png" rfl

/-- Claim C8 counterexample: the probe buffer is *not* capped at
`INFERENCE_BUF_LEN = 8192` bytes — the fill loop copies whole chunks, so a
single 8193-byte chunk lands in the buffer entirely, giving 8193 retained
bytes. -/
theorem inference_buf_can_exceed_probe_len :
    INFERENCE_BUF_LEN <
      (fromField (fun _ => none) none none [List.replicate 8193 0]).inference_buf.length := by
  have h : ∀ c : Chunk, fillInferenceBuf [] [c] = (c, []) := by
    intro c
    rw [fillInferenceBuf, if_pos (by simp [INFERENCE_BUF_LEN]), fillInferenceBuf]
    simp
  show INFERENCE_BUF_LEN < ((fillInferenceBuf [] [List.replicate 8193 0]).1).length
  rw [h, List.length_replicate]
  decide

/-- Claim C8 as amended: the retained probe buffer is the *shortest
whole-chunk prefix* of the stream totalling at least `INFERENCE_BUF_LEN`
bytes (the whole stream if it is shorter) — so it may exceed 8192 when a
chunk straddles the threshold — the unread remainder is exactly the
corresponding suffix, and magic-number inference is computed from exactly
the retained bytes. -/
theorem inference_buf_shortest_chunk_cover (inferGet : List Nat → Option InferType)
    (filename : Option String) (contentType : Option Mime) (chunks : List Chunk) :
    ∃ k,
      (fromField inferGet filename contentType chunks).inference_buf =
        (chunks.take k).flatten ∧
      (fromField inferGet filename contentType chunks).field = chunks.drop k ∧
      (∀ j, j < k → ((chunks.take j).flatten).length < INFERENCE_BUF_LEN) ∧
      (k < chunks.length → INFERENCE_BUF_LEN ≤ ((chunks.take k).flatten).length) ∧
      (fromField inferGet filename contentType chunks).file_type =
        reconcileFileType (fileTypeOfMime contentType)
          (fileTypeOfInfer (inferGet ((chunks.take k).flatten))) := by
  obtain ⟨k, h1, h2, h3⟩ := fillInferenceBuf_spec chunks []
  refine ⟨k, ?_, ?_, fun j hj => by simpa using h2 j hj,
    fun hk => by simpa using h3 hk, ?_⟩
  · show (fillInferenceBuf [] chunks).1 = _
    rw [h1]
    simp
  · show (fillInferenceBuf [] chunks).2 = _
    rw [h1]
  · show reconcileFileType _ (fileTypeOfInfer (inferGet (fillInferenceBuf [] chunks).1)) = _
    rw [h1]
    simp

/-- Claim C9 (confirmed): when the write completes (the drained stream fits
the remaining limit), both destination kinds hold exactly the streamed
bytes with the cursor back at offset 0 — the resolved target path via the
explicit seek in `write_to_path`, and the ephemeral temporary file via the
trailing `debug_file_handle` inside `write_to_file`. -/
theorem storedFile_fully_written_and_rewound (fuel : Nat) (lim : Option Nat)
    (s : CheckedFileStream) (cs : List Chunk)
    (h1 : pollDrain fuel s = some cs)
    (h2 : ∀ L, lim = some L → chunksLen cs ≤ L) :
    writeToPath fuel lim s = (.ok (), ⟨cs.flatten, 0⟩) ∧
    writeToNewTempfile fuel lim s = (.ok (), ⟨cs.flatten, 0⟩) := by
  have h := writeToFileS_ok fuel s cs lim ⟨[], 0⟩ h1 h2 rfl
  constructor
  · rw [writeToPath, h]
    dsimp only
    simp [debugFileHandle]
  · rw [writeToNewTempfile, h]
    simp

/-- Witness for C9: a single-chunk stream `[3]` with no limit ends as file
contents `[3]` at position 0 for both destinations. -/
theorem storedFile_fully_written_and_rewound_witness :
    writeToPath 2 none ⟨[], true, fileTypeOfMime none, "a", [[3]]⟩ = (.ok (), ⟨[3], 0⟩) ∧
    writeToNewTempfile 2 none ⟨[], true, fileTypeOfMime none, "a", [[3]]⟩ =
      (.ok (), ⟨[3], 0⟩) := by
  have h := storedFile_fully_written_and_rewound 2 none
    ⟨[], true, fileTypeOfMime none, "a", [[3]]⟩ [[3]] (by rfl) (fun L hL => by cases hL)
  simpa using h

/-- Claim C10 (confirmed): a field without a filename behaves exactly as one
named `"unnamed screenshot"` through the whole `read_field` pipeline
(extension handling and target-path resolution included), and `from_field`
records that default as the base filename — the upload proceeds rather than
failing. -/
theorem missing_filename_defaults (wfuel cfuel : Nat)
    (inferGet : List Nat → Option InferType) (cap : String → String → Option String)
    (existsF createDirOk : String → Bool) (configData : Option Config)
    (lim : Option Nat) (contentType : Option Mime) (chunks : List Chunk) :
    readField wfuel cfuel inferGet cap existsF createDirOk configData lim none
        contentType chunks =
      readField wfuel cfuel inferGet cap existsF createDirOk configData lim
        (some "unnamed screenshot") contentType chunks ∧
    (fromField inferGet none contentType chunks).base_file_name = "unnamed screenshot" :=
  ⟨rfl, rfl⟩

end Yoinkx
